import Mathlib

/-!
Verification of the my_radio repository (scripts/scrape_wfmu.py,
scripts/play_wfmu.py) against its natural-language specification.

The Python code is shallowly embedded: text is `String` / `List Char`,
JSON values are the inductive `PyJson`, network fetches are oracle
parameters (`Option String`: `none` models a transport failure), and
Python exceptions are modelled with `Except`.  Character classes of the
regular expressions (`[A-Za-z]`, `\d`) and of `str.strip` are embedded
in their ASCII / Latin-1 reading, which is the range exercised by the
scraped pages.
-/

namespace MyRadio

/-! ## Python string primitives -/

/-- ASCII letter, the class written as A to Z and a to z in the date regex
of scrape_wfmu.py. -/
def isAsciiAlpha (c : Char) : Bool :=
  (('a' ≤ c) && (c ≤ 'z')) || (('A' ≤ c) && (c ≤ 'Z'))

/-- ASCII digit, the regex digit class. -/
def isAsciiDigit (c : Char) : Bool :=
  ('0' ≤ c) && (c ≤ '9')

/-- Characters stripped by Python str.strip() with no argument
(ASCII / Latin-1 whitespace). -/
def pyIsSpace (c : Char) : Bool :=
  c = ' ' || c = '\t' || c = '\n' || c = '\r' || c = '\x0b' || c = '\x0c' ||
  c = '\x1c' || c = '\x1d' || c = '\x1e' || c = '\x1f' ||
  c = '\x85' || c = '\xa0'

/-- Line terminators recognised by Python str.splitlines
(the BMP ones beyond Latin-1 included). -/
def isLineTerm (c : Char) : Bool :=
  c = '\n' || c = '\r' || c = '\x0b' || c = '\x0c' ||
  c = '\x1c' || c = '\x1d' || c = '\x1e' || c = '\x85' ||
  c = '\u2028' || c = '\u2029'

/-- Drop trailing characters satisfying p. -/
def dropTrailing (p : Char → Bool) (l : List Char) : List Char :=
  (l.reverse.dropWhile p).reverse

/-- Python str.strip() on character lists. -/
def pyStripL (l : List Char) : List Char :=
  dropTrailing pyIsSpace (l.dropWhile pyIsSpace)

/-- Python str.strip(). -/
def pyStrip (s : String) : String :=
  String.mk (pyStripL s.toList)

/-- Python str.rstrip(". "): drop trailing dots and spaces
(used on scraped titles). -/
def pyRstripDotSpace (s : String) : String :=
  String.mk (dropTrailing (fun c => c = '.' || c = ' ') s.toList)

/-- Python str.lower() (ASCII reading). -/
def pyLower (s : String) : String :=
  String.mk (s.toList.map Char.toLower)

/-- Python str.split(sep) with a one-character separator: keeps empty
pieces, yields one more piece than separators. -/
def splitOnChar (sep : Char) : List Char → List (List Char)
  | [] => [[]]
  | c :: cs =>
    let r := splitOnChar sep cs
    if c = sep then [] :: r
    else
      match r with
      | [] => [[c]]
      | g :: gs => (c :: g) :: gs

/-- Python str.splitlines(): splits at every line terminator, treating
a carriage return followed by a newline as a single terminator, and
produces no trailing empty line. -/
def pySplitlinesGo (acc : List Char) : List Char → List (List Char)
  | [] => if acc.isEmpty then [] else [acc.reverse]
  | '\r' :: '\n' :: rest => acc.reverse :: pySplitlinesGo [] rest
  | c :: rest =>
    if isLineTerm c then acc.reverse :: pySplitlinesGo [] rest
    else pySplitlinesGo (c :: acc) rest

/-- Python str.splitlines() on a string. -/
def pySplitlines (s : String) : List (List Char) :=
  pySplitlinesGo [] s.toList

/-- Substring search on character lists: needle occurs as a contiguous
infix of the haystack. -/
def isSubL (needle : List Char) : List Char → Bool
  | [] => needle.isEmpty
  | c :: rest => needle.isPrefixOf (c :: rest) || isSubL needle rest

/-- Python substring containment, the binary operator written as in. -/
def containsSub (needle hay : String) : Bool :=
  isSubL needle.toList hay.toList

/-! ## scrape_wfmu.get_s3_url_from_rtmp

The function runs a regex search for the pattern mp4:LM/ followed by one
or more non-quote characters over the url; the capture group is the
maximal run of non-quote characters after the first such occurrence.
Since nothing follows the greedy group in the pattern, the regex engine
is equivalent to the left-to-right scan below. -/

/-- The literal part of the regex of get_s3_url_from_rtmp. -/
def lmPat : List Char := 'm' :: 'p' :: '4' :: ':' :: 'L' :: 'M' :: '/' :: []

/-- Left-to-right scan for the first position where lmPat matches and is
followed by at least one non-quote character; returns the captured
filename (the maximal non-quote run after the pattern). -/
def scanLM : List Char → Option (List Char)
  | [] => none
  | c :: cs =>
    if lmPat.isPrefixOf (c :: cs) then
      match (c :: cs).drop lmPat.length with
      | [] => scanLM cs
      | t :: ts => if t = '"' then scanLM cs
                   else some ((t :: ts).takeWhile (fun x => x ≠ '"'))
    else scanLM cs

/-- Embedding of scrape_wfmu.get_s3_url_from_rtmp. -/
def get_s3_url_from_rtmp (rtmp_url : String) : Option String :=
  if rtmp_url = "" then none
  else
    (scanLM rtmp_url.toList).map
      (fun f => "https://s3.amazonaws.com/arch.wfmu.org/LM/" ++ String.mk f)

/-- The pattern of get_s3_url_from_rtmp matches at position i of s:
lmPat occurs there, followed by at least one non-quote character. -/
def lmMatchAt (s : List Char) (i : Nat) : Bool :=
  lmPat.isPrefixOf (s.drop i) &&
    (match s.drop (i + lmPat.length) with
     | [] => false
     | t :: _ => t ≠ '"')

/-! ## The M3U resolvers

Both scripts define a get_mp3_url_from_m3u.  The network fetch is an
oracle argument: none models a raised transport error or bad status,
some t a 200 response with body t. -/

/-- First line of ls that strips to a non-empty string not starting with
a hash character, returned stripped; none when no such line exists.
This is the loop shared by both resolvers. -/
def firstContentLine : List (List Char) → Option (List Char)
  | [] => none
  | l :: ls =>
    let l' := pyStripL l
    if l'.isEmpty then firstContentLine ls
    else if l'.headD ' ' = '#' then firstContentLine ls
    else some l'

/-- Embedding of scrape_wfmu.get_mp3_url_from_m3u: splits the body with
str.splitlines, returns the first stripped non-blank non-comment line,
and the empty string when the url is empty, the fetch fails, or no such
line exists. -/
def get_mp3_url_from_m3u_scrape (m3u_url : String) (fetch : Option String) : String :=
  if m3u_url = "" then ""
  else
    match fetch with
    | none => ""
    | some body =>
      match firstContentLine (pySplitlines body) with
      | none => ""
      | some l => String.mk l

/-- Embedding of play_wfmu.get_mp3_url_from_m3u: strips the body, splits
on newline characters, returns the first stripped non-blank non-comment
line; none when the url is empty, the fetch fails, or no such line
exists. -/
def get_mp3_url_from_m3u_play (m3u_url : String) (fetch : Option String) : Option String :=
  if m3u_url = "" then none
  else
    match fetch with
    | none => none
    | some body =>
      match firstContentLine (splitOnChar '\n' (pyStrip body).toList) with
      | none => none
      | some l => some (String.mk l)

/-! ## URL query parsing (urllib.parse.urlparse / parse_qs)

parse_qs splits the query on ampersands, keeps only pieces that contain
an equals sign with a non-empty raw value, and percent-decodes names and
values (plus signs become spaces).  Multi-byte UTF-8 percent sequences
are embedded bytewise as Latin-1 code points; the identifiers scraped
here are plain ASCII digits. -/

/-- Split at the first occurrence of sep; none when sep is absent. -/
def breakOnChar (sep : Char) : List Char → Option (List Char × List Char)
  | [] => none
  | c :: cs =>
    if c = sep then some ([], cs)
    else (breakOnChar sep cs).map (fun p => (c :: p.1, p.2))

/-- Hex digit test for percent escapes. -/
def isHexDigit (c : Char) : Bool :=
  isAsciiDigit c || (('a' ≤ c) && (c ≤ 'f')) || (('A' ≤ c) && (c ≤ 'F'))

/-- Hex digit value. -/
def hexVal (c : Char) : Nat :=
  if isAsciiDigit c then c.toNat - 48
  else if ('a' ≤ c) && (c ≤ 'f') then c.toNat - 87
  else if ('A' ≤ c) && (c ≤ 'F') then c.toNat - 55
  else 0

/-- Percent-decoding of urllib.parse.unquote: a percent sign followed by
two hex digits decodes to that code point, an invalid escape is kept
verbatim. -/
def pctDecode : List Char → List Char
  | [] => []
  | '%' :: a :: b :: rest =>
    if isHexDigit a && isHexDigit b then
      Char.ofNat (16 * hexVal a + hexVal b) :: pctDecode rest
    else '%' :: pctDecode (a :: b :: rest)
  | c :: rest => c :: pctDecode rest

/-- urllib.parse.unquote_plus: plus signs become spaces, then percent
escapes are decoded. -/
def unquotePlus (l : List Char) : List Char :=
  pctDecode (l.map (fun c => if c = '+' then ' ' else c))

/-- The query component of urlparse: the fragment (after the first hash)
is removed, the query is what follows the first question mark. -/
def urlQuery (href : String) : List Char :=
  match breakOnChar '?' (href.toList.takeWhile (fun c => c ≠ '#')) with
  | none => []
  | some (_, q) => q

/-- First value listed for key by parse_qs (the head of the value list
that params.get reads), or the empty string when the key is absent. -/
def parseQsFirstGo (key : String) : List (List Char) → String
  | [] => ""
  | part :: rest =>
    match breakOnChar '=' part with
    | none => parseQsFirstGo key rest
    | some (k, v) =>
      if v.isEmpty then parseQsFirstGo key rest
      else if String.mk (unquotePlus k) = key then String.mk (unquotePlus v)
      else parseQsFirstGo key rest

/-- params.get(key, [one empty string])[0] over parse_qs of the query. -/
def parseQsFirst (query : List Char) (key : String) : String :=
  parseQsFirstGo key (splitOnChar '&' query)

/-! ## JSON values -/

/-- Python/JSON values as json.loads produces them. -/
inductive PyJson where
  | null
  | bool (b : Bool)
  | num (n : Int)
  | str (s : String)
  | arr (elems : List PyJson)
  | obj (fields : List (String × PyJson))

/-- Key lookup in a JSON object field list (dict lookup). -/
def lookupField : List (String × PyJson) → String → Option PyJson
  | [], _ => none
  | (k, v) :: rest, key => if k = key then some v else lookupField rest key

/-- Python truthiness of a JSON value. -/
def PyJson.truthy : PyJson → Bool
  | .null => false
  | .bool b => b
  | .num n => n ≠ 0
  | .str s => s ≠ ""
  | .arr l => !l.isEmpty
  | .obj fs => !fs.isEmpty

/-! ## scrape_wfmu.get_media_url_from_flashplayer

The fetch, the textarea search and json.loads are abstracted into a
FlashPage: the observable outcome of those steps on the popup page.
Every raised exception is caught by the function (JSONDecodeError by the
inner handler, everything else by the outer one) and turned into the
empty string; indexing the parsed data follows the dict accesses of the
source line by line, with TypeError / KeyError paths yielding the empty
string through the outer handler. -/

/-- Outcome of fetching the flashplayer page and locating its
playlist-data textarea. -/
inductive FlashPage where
  | fetchError
  | noTextarea
  | badJson
  | parsed (data : PyJson)

/-- Embedding of scrape_wfmu.get_media_url_from_flashplayer.  The value
returned is data.audio.attributes-of.url on the happy path (any JSON
value), and the empty string on every failure path. -/
def get_media_url_from_flashplayer (popup_url : String) (page : FlashPage) : PyJson :=
  if popup_url = "" then .str ""
  else
    match page with
    | .fetchError => .str ""
    | .noTextarea => .str ""
    | .badJson => .str ""
    | .parsed data =>
      if data.truthy then
        match data with
        | .obj fs =>
          match lookupField fs "audio" with
          | some (.obj afs) =>
            match lookupField afs "@attributes" with
            | some (.obj avs) =>
              match lookupField avs "url" with
              | some u => u
              | none => .str ""
            | some _ => .str ""
            | none => .str ""
          | some _ => .str ""
          | none => .str ""
        | _ => .str ""
      else .str ""

/-! ## The Entry Parser (scrape_wfmu.scrape_wfmu_playlists)

The HTML layer is abstracted: a list item carries the text that
li.get_text(strip=True) returns, its anchors (href and stripped label),
and the stripped anchor-free text of its first bold element when one
exists.  The call to get_media_url_from_flashplayer inside the loop is a
network access and enters the model as the oracle flash. -/

/-- An anchor of a list item: href attribute and stripped label text. -/
structure Link where
  href : String
  label : String
deriving DecidableEq

/-- A candidate list item of the scraped page. -/
structure LItem where
  text : String
  links : List Link
  bold : Option String
deriving DecidableEq

/-- Tail of the date regex after the optional digit run: the optional
comma already consumed, a space and exactly four digits; returns the
whole match (group one) and the year digits (group two). -/
def finishYear (al ds comma s4 : List Char) : Option (List Char × List Char) :=
  let y := s4.take 4
  if y.length = 4 && y.all isAsciiDigit then
    some (al ++ ' ' :: (ds ++ comma ++ ' ' :: y), y)
  else none

/-- Match of the date regex at the head of s: an ASCII letter run, a
space, a digit run, an optional comma, a space, four digits.  The
greedy runs need no backtracking: shortening a maximal run leaves a
character of the same class next, which the following literal
rejects. -/
def matchDateAt (s : List Char) : Option (List Char × List Char) :=
  let al := s.takeWhile isAsciiAlpha
  if al.isEmpty then none
  else
    match s.drop al.length with
    | ' ' :: s2 =>
      let ds := s2.takeWhile isAsciiDigit
      if ds.isEmpty then none
      else
        match s2.drop ds.length with
        | ',' :: ' ' :: s4 => finishYear al ds [','] s4
        | ' ' :: s4 => finishYear al ds [] s4
        | _ => none
    | _ => none

/-- re.search of the date regex: the leftmost position with a match. -/
def searchDate : List Char → Option (List Char × List Char)
  | [] => none
  | c :: cs =>
    match matchDateAt (c :: cs) with
    | some r => some r
    | none => searchDate cs

/-- Numeric value of a digit string (int on the year group). -/
def digitsToNat (l : List Char) : Nat :=
  l.foldl (fun n c => 10 * n + (c.toNat - 48)) 0

/-- The popup URL format string of the scraper. -/
def popupUrlOf (sh ar : String) : String :=
  "https://www.wfmu.org/flashplayer.php?version=3&show=" ++ sh ++ "&archive=" ++ ar

/-- State left by the anchor-classification loop of the scraper. -/
structure LinkScan where
  playlist_link : String
  show_id : String
  archive_id : String
  popup_listen_url : String
  raw : String
deriving DecidableEq

/-- The anchor loop of the scraper: the playlist link is remembered from
anchors labelled with the playlist label; a popup-ish anchor has its
show and archive query values parsed, and the loop breaks on the first
one where both are non-empty, recording the popup URL.  The local
variable holding the item text is rebound to each visited label, so raw
finishes as the label of the last anchor examined. -/
def linkLoop : List Link → String → String → String → String → LinkScan
  | [], pl, sh, ar, raw => ⟨pl, sh, ar, "", raw⟩
  | l :: rest, pl, sh, ar, _ =>
    let t := l.label
    if containsSub "See the playlist" t then
      linkLoop rest ("https://www.wfmu.org" ++ l.href) sh ar t
    else if containsSub "Pop-up" t ||
            (containsSub "flashplayer.php" l.href && containsSub "version=3" l.href) then
      let sh2 := parseQsFirst (urlQuery l.href) "show"
      let ar2 := parseQsFirst (urlQuery l.href) "archive"
      if sh2 ≠ "" && ar2 ≠ "" then ⟨pl, sh2, ar2, popupUrlOf sh2 ar2, t⟩
      else linkLoop rest pl sh2 ar2 t
    else linkLoop rest pl sh ar t

/-- A Show Entry as the scraper writes it (the nine dict keys). -/
structure Entry where
  date : String
  title : String
  show_id : String
  archive_id : String
  playlist_link : String
  popup_listen_url : String
  direct_media_url : String
  mp4_listen_url : Option String
  raw_text : String
deriving DecidableEq

/-- The per-item body of the scrape loop with the two loop-control
guards (year cutoff, entry limit) factored out: an entry is produced
when the date regex matches and the anchor loop found a popup URL. -/
def processItem (flash : String → String) (it : LItem) : Option Entry :=
  match searchDate it.text.toList with
  | none => none
  | some (g1, _) =>
    let ls := linkLoop it.links "" "" "" it.text
    if ls.popup_listen_url = "" then none
    else
      let direct := flash ls.popup_listen_url
      some { date := String.mk g1
           , title := match it.bold with | none => "" | some b => pyRstripDotSpace b
           , show_id := ls.show_id
           , archive_id := ls.archive_id
           , playlist_link := ls.playlist_link
           , popup_listen_url := ls.popup_listen_url
           , direct_media_url := direct
           , mp4_listen_url := get_s3_url_from_rtmp direct
           , raw_text := ls.raw }

/-- Year parsed from an item, when its text matches the date regex. -/
def itemYear (it : LItem) : Option Nat :=
  (searchDate it.text.toList).map (fun p => digitsToNat p.2)

/-- A date-matching item at or below the cutoff year: the loop breaks
there. -/
def isStopItem (it : LItem) : Bool :=
  match itemYear it with
  | some y => decide (y ≤ 2024)
  | none => false

/-- The scrape loop of scrape_wfmu_playlists over the candidate items:
cnt is the number of entries accepted so far (max_entries is 4). -/
def scrapeLoop (flash : String → String) : List LItem → Nat → List Entry
  | [], _ => []
  | it :: rest, cnt =>
    match searchDate it.text.toList with
    | none => scrapeLoop flash rest cnt
    | some (_, y) =>
      if digitsToNat y ≤ 2024 then []
      else
        match processItem flash it with
        | none => scrapeLoop flash rest cnt
        | some e => e :: (if cnt + 1 ≥ 4 then [] else scrapeLoop flash rest (cnt + 1))

/-- The playlists list the scraper accumulates and writes. -/
def wfmuScrape (flash : String → String) (items : List LItem) : List Entry :=
  scrapeLoop flash items 0

/-! ## The Snapshot Writer and the snapshot loader

json.dump writes the JSON document below and json.load reads it back;
the round trip through the file is the identity on the JSON tree, so
the snapshot is modelled as the tree itself. -/

/-- The dict the scraper appends to the playlists list, as JSON. -/
def entryToJson (e : Entry) : PyJson :=
  .obj [ ("date", .str e.date)
       , ("title", .str e.title)
       , ("show_id", .str e.show_id)
       , ("archive_id", .str e.archive_id)
       , ("playlist_link", .str e.playlist_link)
       , ("popup_listen_url", .str e.popup_listen_url)
       , ("direct_media_url", .str e.direct_media_url)
       , ("mp4_listen_url", match e.mp4_listen_url with
                            | none => .null
                            | some u => .str u)
       , ("raw_text", .str e.raw_text) ]

/-- The snapshot document of scrape_wfmu_playlists. -/
def writeSnapshot (last_updated source_url : String) (entries : List Entry) : PyJson :=
  .obj [ ("last_updated", .str last_updated)
       , ("source_url", .str source_url)
       , ("playlists", .arr (entries.map entryToJson)) ]

/-- Embedding of play_wfmu.load_playlists: none models a missing or
unparsable snapshot file; every raised exception (including a missing
playlists key) is caught and yields the empty list. -/
def load_playlists (file : Option PyJson) : PyJson :=
  match file with
  | none => .arr []
  | some (.obj fs) =>
    match lookupField fs "playlists" with
    | some v => v
    | none => .arr []
  | some _ => .arr []

/-- String field of a JSON object lookup. -/
def asStr : Option PyJson → Option String
  | some (.str s) => some s
  | _ => none

/-- Nullable string field of a JSON object lookup. -/
def asOptStr : Option PyJson → Option (Option String)
  | some .null => some none
  | some (.str s) => some (some s)
  | _ => none

/-- Reading the nine fields of a serialized Show Entry back by value. -/
def entryOfJson (j : PyJson) : Option Entry :=
  match j with
  | .obj fs =>
    match asStr (lookupField fs "date"), asStr (lookupField fs "title"),
          asStr (lookupField fs "show_id"), asStr (lookupField fs "archive_id"),
          asStr (lookupField fs "playlist_link"), asStr (lookupField fs "popup_listen_url"),
          asStr (lookupField fs "direct_media_url"), asOptStr (lookupField fs "mp4_listen_url"),
          asStr (lookupField fs "raw_text") with
    | some d, some t, some si, some ai, some pl, some pu, some dm, some m4, some rt =>
      some ⟨d, t, si, ai, pl, pu, dm, m4, rt⟩
    | _, _, _, _, _, _, _, _, _ => none
  | _ => none

/-! ## The Playback Driver menu loop (play_wfmu.main)

One pass of the while loop, from the read of the menu choice to the
point where the loop continues, quits, or an exception escapes.  The
try block around the pass catches exactly ValueError (a non-numeric
int argument) and KeyboardInterrupt; a KeyError raised by a dict access
is not caught and propagates out of the loop.  The two network-backed
resolvers are oracles; the snapshot file and the loaded playlists are
threaded through explicitly to state that the pass leaves them
untouched. -/

/-- Python int() on a string: optional surrounding whitespace and sign,
then digits with single underscores between digits. -/
def pyIntDigitsOk (l : List Char) : Bool :=
  (splitOnChar '_' l).all (fun g => !g.isEmpty && g.all isAsciiDigit)

/-- Value of a digit string with group underscores. -/
def pyIntVal (l : List Char) : Nat :=
  l.foldl (fun n c => if c = '_' then n else 10 * n + (c.toNat - 48)) 0

/-- Embedding of int(choice): none models a raised ValueError. -/
def pyIntParse (s : String) : Option Int :=
  match pyStripL s.toList with
  | '+' :: r => if pyIntDigitsOk r then some (Int.ofNat (pyIntVal r)) else none
  | '-' :: r => if pyIntDigitsOk r then some (-(Int.ofNat (pyIntVal r))) else none
  | r => if pyIntDigitsOk r then some (Int.ofNat (pyIntVal r)) else none

/-- Exceptions that can escape one pass of the menu loop. -/
inductive PyErr where
  | keyError (k : String)
  | typeError
  | attributeError
deriving DecidableEq

/-- Observable outcome of one pass of the menu loop. -/
inductive DriverEvent where
  | quit
  | reprompt (msg : String)
  | noUrl
  | played (url : String)
deriving DecidableEq

/-- State the menu loop can see: the loaded playlists binding and the
snapshot file on disk. -/
structure DriverState where
  playlists : List PyJson
  snapshotFile : Option PyJson

/-- Python dict indexing: KeyError on a missing key, TypeError when the
value is not a dict. -/
def dictGet (j : PyJson) (k : String) : Except PyErr PyJson :=
  match j with
  | .obj fs =>
    match lookupField fs k with
    | some v => Except.ok v
    | none => Except.error (.keyError k)
  | _ => Except.error .typeError

/-- An if-not test on a value that is None or a string. -/
def falsyS : Option String → Bool
  | none => true
  | some s => s = ""

/-- The f-string and the play_stream call at the end of a successful
selection: the date and title dict accesses happen first, then
play_stream receives the chosen value (a non-string value would fail
its startswith scheme test). -/
def playOutcome (st : DriverState) (shw : PyJson) (v : PyJson) :
    Except PyErr (DriverState × DriverEvent) :=
  match dictGet shw "date" with
  | .error e => .error e
  | .ok _ =>
    match dictGet shw "title" with
    | .error e => .error e
    | .ok _ =>
      match v with
      | .str u => .ok (st, .played u)
      | _ => .error .attributeError

/-- One pass of the menu loop of play_wfmu.main on the entered choice.
flash models get_stream_url_from_flashplayer on the popup URL, and
m3uFetch models the network fetch inside get_mp3_url_from_m3u. -/
def selectionStep (st : DriverState) (choice : String)
    (flash : String → Option String) (m3uFetch : String → Option String) :
    Except PyErr (DriverState × DriverEvent) :=
  if pyLower choice = "q" then .ok (st, .quit)
  else
    match pyIntParse choice with
    | none => .ok (st, .reprompt "Please enter a valid number.")
    | some k =>
      let idx : Int := k - 1
      if 0 ≤ idx ∧ idx < (st.playlists.length : Int) then
        let shw := st.playlists.getD idx.toNat .null
        match dictGet shw "popup_listen_url" with
        | .error e => .error e
        | .ok pu =>
          let s1 : Option String :=
            match pu with
            | .str p => flash p
            | _ => none
          if falsyS s1 then
            match dictGet shw "m3u_url" with
            | .error e => .error e
            | .ok mv =>
              let s2 : Option String :=
                match mv with
                | .str m => get_mp3_url_from_m3u_play m (m3uFetch m)
                | _ => none
              if falsyS s2 then
                match dictGet shw "direct_media_url" with
                | .error e => .error e
                | .ok dm =>
                  if dm.truthy then playOutcome st shw dm
                  else .ok (st, .noUrl)
              else playOutcome st shw (.str (s2.getD ""))
          else playOutcome st shw (.str (s1.getD ""))
        else .ok (st, .reprompt "Invalid show number.")

/-! ## Derived observers and claim-side definitions -/

/-- The keys of a JSON object, in order. -/
def jsonKeys : PyJson → List String
  | .obj fs => fs.map Prod.fst
  | _ => []

/-- A line that strips to nothing or to a string starting with a hash:
the lines the M3U loops skip. -/
def blankOrComment (l : List Char) : Bool :=
  (pyStripL l).isEmpty || (pyStripL l).headD ' ' = '#'

/-- Written from the claim's words, for comparison with the code: the
first line of the document that is neither blank nor prefixed with a
hash, returned exactly as it stands in the document (unstripped). -/
def specFirstContentGo : List (List Char) → Option String
  | [] => none
  | l :: ls =>
    if (pyStripL l).isEmpty || l.headD ' ' = '#' then specFirstContentGo ls
    else some (String.mk l)

/-- The first non-blank, non-comment line of an M3U document, verbatim,
as the claim describes the resolver's result. -/
def specFirstContentLine (doc : String) : Option String :=
  specFirstContentGo (splitOnChar '\n' doc.toList)

/-- The four year digits at the end of a matched date string (the date
regex ends with the four-digit year group). -/
def dateYear (s : String) : Nat :=
  digitsToNat ((s.toList.reverse.take 4).reverse)

/-- Field-by-field decoding of serialized entries, to state that a
written snapshot reloads to entries equal by value. -/
def decodeEntries : List PyJson → Option (List Entry)
  | [] => some []
  | j :: js =>
    match entryOfJson j, decodeEntries js with
    | some e, some es => some (e :: es)
    | _, _ => none

/-! ## Concrete test fixtures -/

/-- Flashplayer oracle returning no media URL. -/
def cFlash : String → String := fun _ => ""

/-- A list item with a 2025 date, a popup anchor and a bold title. -/
def cItemJan : LItem :=
  ⟨"January 3, 2025: Great Show.",
   [⟨"/flashplayer.php?version=3&show=12&archive=34", "Pop-up listen"⟩],
   some "Great Show."⟩

/-- A list item whose text has no date match. -/
def cItemNoDate : LItem := ⟨"hello world", [], none⟩

/-- The entry the scraper produces for cItemJan under cFlash. -/
def cEntryJan : Entry :=
  ⟨"January 3, 2025", "Great Show", "12", "34", "",
   "https://www.wfmu.org/flashplayer.php?version=3&show=12&archive=34",
   "", none, "Pop-up listen"⟩

/-- An M3U body whose content line carries surrounding whitespace. -/
def c4Doc : String := "#comment\n  https://example.com/stream.mp3  "

/-! ## Supporting lemmas -/

theorem string_mk_eq_empty_iff (l : List Char) : String.mk l = "" ↔ l = [] := by
  constructor
  · intro h; exact congrArg String.toList h
  · intro h; subst h; rfl

theorem lm_isPrefixOf_append (X : List Char) : lmPat.isPrefixOf (lmPat ++ X) = true := by
  rw [List.isPrefixOf_iff_prefix]; exact List.prefix_append _ _

theorem takeWhile_append_of_all (q : Char → Bool) (f r : List Char)
    (hf : ∀ x ∈ f, q x = true)
    (hr : r = [] ∨ ∃ c r2, r = c :: r2 ∧ q c = false) :
    (f ++ r).takeWhile q = f := by
  induction f with
  | nil =>
    rcases hr with h | ⟨c, r2, h, hc⟩
    · subst h; rfl
    · subst h; simp [List.takeWhile_cons, hc]
  | cons a f ih =>
    have ha := hf a (by simp)
    simp only [List.cons_append, List.takeWhile_cons, ha, if_true]
    rw [ih (fun x hx => hf x (by simp [hx]))]

theorem lmMatchAt_cons (c : Char) (l : List Char) (i : Nat) :
    lmMatchAt (c :: l) (i + 1) = lmMatchAt l i := by
  have h1 : (c :: l).drop (i + 1) = l.drop i := rfl
  have h2 : (c :: l).drop (i + 1 + lmPat.length) = l.drop (i + lmPat.length) := by
    have : i + 1 + lmPat.length = (i + lmPat.length) + 1 := by omega
    rw [this]; rfl
  simp only [lmMatchAt, h1, h2]

theorem lmMatchAt_zero (s : List Char) :
    lmMatchAt s 0 =
      (lmPat.isPrefixOf s &&
        (match s.drop lmPat.length with
         | [] => false
         | t :: _ => t ≠ '"')) := by
  simp only [lmMatchAt, List.drop_zero, Nat.zero_add]

theorem scanLM_match (f r : List Char) (hf : f ≠ []) (hq : ∀ x ∈ f, x ≠ '"')
    (hr : r = [] ∨ ∃ r2, r = '"' :: r2) :
    ∀ p : List Char,
      (∀ i, i < p.length → lmMatchAt (p ++ lmPat ++ (f ++ r)) i = false) →
      scanLM (p ++ lmPat ++ (f ++ r)) = some f := by
  intro p
  induction p with
  | nil =>
    intro _
    obtain ⟨t, ts, rfl⟩ : ∃ t ts, f = t :: ts := by
      cases f with
      | nil => exact absurd rfl hf
      | cons t ts => exact ⟨t, ts, rfl⟩
    have ht : t ≠ '"' := hq t (by simp)
    have hdrop : (lmPat ++ ((t :: ts) ++ r)).drop lmPat.length = (t :: ts) ++ r :=
      List.drop_left _ _
    have htw : ((t :: ts) ++ r).takeWhile (fun x => x ≠ '"') = t :: ts := by
      apply takeWhile_append_of_all
      · intro x hx; simpa using hq x hx
      · rcases hr with h | ⟨r2, h⟩
        · exact Or.inl h
        · exact Or.inr ⟨'"', r2, h, by simp⟩
    show scanLM ([] ++ lmPat ++ ((t :: ts) ++ r)) = some (t :: ts)
    have hform : [] ++ lmPat ++ ((t :: ts) ++ r)
        = 'm' :: 'p' :: '4' :: ':' :: 'L' :: 'M' :: '/' :: t :: (ts ++ r) := by
      simp [lmPat]
    rw [hform, scanLM]
    have hpre : lmPat.isPrefixOf
        ('m' :: 'p' :: '4' :: ':' :: 'L' :: 'M' :: '/' :: t :: (ts ++ r)) = true :=
      lm_isPrefixOf_append (t :: (ts ++ r))
    rw [if_pos hpre]
    have hd7 : ('m' :: 'p' :: '4' :: ':' :: 'L' :: 'M' :: '/' :: t :: (ts ++ r)).drop
        lmPat.length = t :: (ts ++ r) := rfl
    have htw2 : List.takeWhile (fun x => decide (x ≠ '"')) (t :: (ts ++ r)) = t :: ts := by
      rw [← List.cons_append]
      exact htw
    split
    · next heq =>
      rw [hd7] at heq
      simp at heq
    · next t1 ts1 heq =>
      rw [hd7] at heq
      injection heq with he1 he2
      subst he1
      subst he2
      rw [if_neg ht, htw2]
  | cons a p ih =>
    intro h
    have hs : (a :: p) ++ lmPat ++ (f ++ r) = a :: (p ++ lmPat ++ (f ++ r)) := by simp
    rw [hs]
    have h0 : lmMatchAt (a :: (p ++ lmPat ++ (f ++ r))) 0 = false := by
      rw [← hs]; exact h 0 (by simp)
    have hshift : ∀ i, i < p.length → lmMatchAt (p ++ lmPat ++ (f ++ r)) i = false := by
      intro i hi
      have := h (i + 1) (by simp; omega)
      rwa [hs, lmMatchAt_cons] at this
    rw [lmMatchAt_zero] at h0
    rw [scanLM]
    by_cases hp : lmPat.isPrefixOf (a :: (p ++ lmPat ++ (f ++ r))) = true
    · rw [if_pos hp]
      rw [hp, Bool.true_and] at h0
      split
      · next => exact ih hshift
      · next t ts heq =>
        rw [heq] at h0
        simp only [ne_eq, decide_not] at h0
        have ht : t = '"' := by
          by_contra hne
          simp [hne] at h0
        rw [if_pos ht]
        exact ih hshift
    · rw [if_neg hp]
      exact ih hshift

theorem scanLM_none : ∀ s : List Char,
    (∀ i, i < s.length → lmMatchAt s i = false) → scanLM s = none := by
  intro s
  induction s with
  | nil => intro _; rfl
  | cons c cs ih =>
    intro h
    have h0 : lmMatchAt (c :: cs) 0 = false := h 0 (by simp)
    rw [lmMatchAt_zero] at h0
    have hshift : ∀ i, i < cs.length → lmMatchAt cs i = false := by
      intro i hi
      have := h (i + 1) (by simp; omega)
      rwa [lmMatchAt_cons] at this
    rw [scanLM]
    by_cases hp : lmPat.isPrefixOf (c :: cs) = true
    · rw [if_pos hp]
      rw [hp, Bool.true_and] at h0
      split
      · next => exact ih hshift
      · next t ts heq =>
        rw [heq] at h0
        simp only [ne_eq, decide_not] at h0
        have ht : t = '"' := by
          by_contra hne
          simp [hne] at h0
        rw [if_pos ht]
        exact ih hshift
    · rw [if_neg hp]
      exact ih hshift

/-! ## Claims -/

/-- Claim C3: for every RTMP-style URL containing the pattern mp4:LM/
followed by a filename (its first such occurrence, with the filename the
maximal non-quote run after it), get_s3_url_from_rtmp returns exactly
the S3 URL with that filename substituted; for every input in which the
pattern matches at no position (the empty string included) it returns
none. -/
theorem c3_rtmp_s3_conversion :
    (∀ p f r : List Char, f ≠ [] → (∀ x ∈ f, x ≠ '"') →
      (r = [] ∨ ∃ r2, r = '"' :: r2) →
      (∀ i, i < p.length → lmMatchAt (p ++ lmPat ++ (f ++ r)) i = false) →
      get_s3_url_from_rtmp (String.mk (p ++ lmPat ++ (f ++ r)))
        = some ("https://s3.amazonaws.com/arch.wfmu.org/LM/" ++ String.mk f))
    ∧ (∀ s : String,
      (∀ i, i < s.toList.length → lmMatchAt s.toList i = false) →
      get_s3_url_from_rtmp s = none) := by
  constructor
  · intro p f r hf hq hr h
    have hne : String.mk (p ++ lmPat ++ (f ++ r)) ≠ "" := by
      intro h0
      have hnil := (string_mk_eq_empty_iff _).mp h0
      simp [lmPat] at hnil
    rw [get_s3_url_from_rtmp, if_neg hne]
    have : (String.mk (p ++ lmPat ++ (f ++ r))).toList = p ++ lmPat ++ (f ++ r) := rfl
    rw [this, scanLM_match f r hf hq hr p h]
    rfl
  · intro s h
    rw [get_s3_url_from_rtmp]
    by_cases hs : s = ""
    · rw [if_pos hs]
    · rw [if_neg hs, scanLM_none s.toList h]
      rfl

/-- Witness for c3_rtmp_s3_conversion: the worked example of the spec and
a patternless input. -/
theorem c3_rtmp_s3_conversion_witness :
    get_s3_url_from_rtmp
        (String.mk ("rtmp://host/".toList ++ lmPat ++ ("lm250424.mp4".toList ++ [])))
      = some ("https://s3.amazonaws.com/arch.wfmu.org/LM/" ++ String.mk "lm250424.mp4".toList)
    ∧ get_s3_url_from_rtmp "https://nope" = none :=
  ⟨c3_rtmp_s3_conversion.1 "rtmp://host/".toList "lm250424.mp4".toList []
      (by decide) (by decide) (Or.inl rfl) (by decide),
   c3_rtmp_s3_conversion.2 "https://nope" (by decide)⟩

/-- Claim C5: on a popup page whose playlist-data textarea holds a
well-formed JSON object with an audio object whose attribute block
contains a url string, the resolver returns that url verbatim, and
repeated calls on the same fixed input return the same result. -/
theorem c5_flashplayer_url_verbatim :
    ∀ (url : String) (fs afs avs : List (String × PyJson)) (u : String),
      url ≠ "" →
      lookupField fs "audio" = some (.obj afs) →
      lookupField afs "@attributes" = some (.obj avs) →
      lookupField avs "url" = some (.str u) →
      get_media_url_from_flashplayer url (.parsed (.obj fs)) = .str u
      ∧ get_media_url_from_flashplayer url (.parsed (.obj fs))
          = get_media_url_from_flashplayer url (.parsed (.obj fs)) := by
  intro url fs afs avs u hurl h1 h2 h3
  refine ⟨?_, rfl⟩
  have htr : (PyJson.obj fs).truthy = true := by
    cases fs with
    | nil => simp [lookupField] at h1
    | cons a l => simp [PyJson.truthy]
  rw [get_media_url_from_flashplayer, if_neg hurl]
  simp only [htr, if_true, h1, h2, h3]

/-- Witness for c5_flashplayer_url_verbatim on a concrete page. -/
theorem c5_flashplayer_url_verbatim_witness :
    get_media_url_from_flashplayer
        "https://www.wfmu.org/flashplayer.php?version=3&show=12&archive=34"
        (.parsed (.obj [("audio",
          .obj [("@attributes", .obj [("url", .str "rtmp://h/mp4:LM/x.mp4")])])]))
      = .str "rtmp://h/mp4:LM/x.mp4"
    ∧ get_media_url_from_flashplayer
        "https://www.wfmu.org/flashplayer.php?version=3&show=12&archive=34"
        (.parsed (.obj [("audio",
          .obj [("@attributes", .obj [("url", .str "rtmp://h/mp4:LM/x.mp4")])])]))
      = get_media_url_from_flashplayer
        "https://www.wfmu.org/flashplayer.php?version=3&show=12&archive=34"
        (.parsed (.obj [("audio",
          .obj [("@attributes", .obj [("url", .str "rtmp://h/mp4:LM/x.mp4")])])])) :=
  c5_flashplayer_url_verbatim _ _ _ _ _ (by decide) rfl rfl rfl

/-- Claim C9: a selection that is not the quit command and is either
non-numeric or out of range makes one loop pass end in a printed
message and a re-prompt, with the driver state (loaded playlists and
snapshot file) returned unchanged and no exception raised. -/
theorem c9_invalid_selection_reprompts :
    ∀ (st : DriverState) (choice : String) (flash m3uFetch : String → Option String),
      pyLower choice ≠ "q" →
      (pyIntParse choice = none ∨
        ∃ k, pyIntParse choice = some k ∧
          ¬(0 ≤ k - 1 ∧ k - 1 < (st.playlists.length : Int))) →
      ∃ msg, selectionStep st choice flash m3uFetch = .ok (st, .reprompt msg) := by
  intro st choice flash m3u hq hbad
  rcases hbad with hnone | ⟨k, hk, hrange⟩
  · refine ⟨"Please enter a valid number.", ?_⟩
    rw [selectionStep, if_neg hq, hnone]
  · refine ⟨"Invalid show number.", ?_⟩
    rw [selectionStep, if_neg hq, hk]
    simp only []
    rw [if_neg hrange]

/-- Witness for c9_invalid_selection_reprompts: a non-numeric choice and
an out-of-range choice against an empty menu. -/
theorem c9_invalid_selection_reprompts_witness :
    (∃ msg, selectionStep ⟨[], none⟩ "abc" (fun _ => none) (fun _ => none)
        = .ok (⟨[], none⟩, .reprompt msg))
    ∧ (∃ msg, selectionStep ⟨[], none⟩ "7" (fun _ => none) (fun _ => none)
        = .ok (⟨[], none⟩, .reprompt msg)) :=
  ⟨c9_invalid_selection_reprompts ⟨[], none⟩ "abc" _ _ (by decide) (Or.inl (by decide)),
   c9_invalid_selection_reprompts ⟨[], none⟩ "7" _ _ (by decide)
     (Or.inr ⟨7, by decide, by decide⟩)⟩

/-- Claim C2 is contradicted by the code: the scraper rebinds the loop
variable holding the item text to each anchor label, so the entry
written for cItemJan records the popup anchor label as raw_text, not
the visible text of the list item. -/
theorem c2_raw_text_is_anchor_label :
    wfmuScrape cFlash [cItemJan] = [cEntryJan]
    ∧ cEntryJan.raw_text = "Pop-up listen"
    ∧ cItemJan.text = "January 3, 2025: Great Show."
    ∧ cEntryJan.raw_text ≠ cItemJan.text := by
  refine ⟨by decide, rfl, rfl, by decide⟩

/-- Claim C1 is contradicted by the code: for any snapshot the scraper
produced, when the flashplayer strategy yields no URL the driver reads
the m3u_url key, which the scraper never writes, and the resulting
KeyError is not caught by the loop's handlers (which catch only
ValueError and KeyboardInterrupt), so the error propagates instead of
falling through to the direct URL. -/
theorem c1_m3u_fallback_key_error :
    ∀ (flashS : String → String) (items : List LItem) (file : Option PyJson)
      (m3uFetch : String → Option String),
      wfmuScrape flashS items ≠ [] →
      selectionStep ⟨(wfmuScrape flashS items).map entryToJson, file⟩ "1"
          (fun _ => none) m3uFetch = .error (.keyError "m3u_url") := by
  intro flashS items file m3u hne
  obtain ⟨e, es, heq⟩ : ∃ e es, wfmuScrape flashS items = e :: es := by
    cases h : wfmuScrape flashS items with
    | nil => exact absurd h hne
    | cons e es => exact ⟨e, es, rfl⟩
  rw [heq]
  rw [selectionStep, if_neg (by decide : ¬(pyLower "1" = "q"))]
  rw [show pyIntParse "1" = some 1 from rfl]
  simp only []
  have hrange : (0 : Int) ≤ (1 : Int) - 1
      ∧ (1 : Int) - 1 < (((e :: es).map entryToJson).length : Int) := by
    refine ⟨by decide, ?_⟩
    simp only [List.length_map, List.length_cons]
    omega
  rw [if_pos hrange]
  rfl

/-- Witness for c1_m3u_fallback_key_error at a concrete scraped
snapshot. -/
theorem c1_m3u_fallback_key_error_witness :
    selectionStep ⟨(wfmuScrape cFlash [cItemJan]).map entryToJson, none⟩ "1"
        (fun _ => none) (fun _ => none) = .error (.keyError "m3u_url") :=
  c1_m3u_fallback_key_error cFlash [cItemJan] none (fun _ => none) (by decide)

theorem scrapeLoop_skip (flash : String → String) (it : LItem)
    (hit : searchDate it.text.toList = none) :
    ∀ (pre post : List LItem) (cnt : Nat),
      scrapeLoop flash (pre ++ it :: post) cnt = scrapeLoop flash (pre ++ post) cnt := by
  intro pre
  induction pre with
  | nil =>
    intro post cnt
    show scrapeLoop flash (it :: post) cnt = scrapeLoop flash post cnt
    rw [scrapeLoop, hit]
  | cons a pre ih =>
    intro post cnt
    show scrapeLoop flash (a :: (pre ++ it :: post)) cnt
        = scrapeLoop flash (a :: (pre ++ post)) cnt
    rw [scrapeLoop, scrapeLoop]
    cases hsd : searchDate a.text.toList with
    | none => exact ih post cnt
    | some p =>
      obtain ⟨g1, y⟩ := p
      simp only []
      by_cases hy : digitsToNat y ≤ 2024
      · rw [if_pos hy, if_pos hy]
      · rw [if_neg hy, if_neg hy]
        cases hpi : processItem flash a with
        | none => exact ih post cnt
        | some e =>
          simp only []
          by_cases hc : cnt + 1 ≥ 4
          · rw [if_pos hc, if_pos hc]
          · rw [if_neg hc, if_neg hc, ih post (cnt + 1)]

/-- Claim C6: a list item whose visible text has no match of the date
regex contributes no entry: the per-item body yields none and deleting
the item from the page leaves the scraped playlists unchanged (the item
is skipped, no error is raised). -/
theorem c6_no_date_no_entry :
    ∀ (flash : String → String) (pre post : List LItem) (it : LItem),
      searchDate it.text.toList = none →
      processItem flash it = none
      ∧ wfmuScrape flash (pre ++ it :: post) = wfmuScrape flash (pre ++ post) := by
  intro flash pre post it h
  constructor
  · rw [processItem, h]
  · exact scrapeLoop_skip flash it h pre post 0

/-- Witness for c6_no_date_no_entry on a dateless item next to a
scrapable one. -/
theorem c6_no_date_no_entry_witness :
    processItem cFlash cItemNoDate = none
    ∧ wfmuScrape cFlash ([cItemJan] ++ cItemNoDate :: [])
        = wfmuScrape cFlash ([cItemJan] ++ []) :=
  c6_no_date_no_entry cFlash [cItemJan] [] cItemNoDate (by decide)

theorem linkLoop_popup : ∀ (links : List Link) (pl sh ar raw : String),
    (linkLoop links pl sh ar raw).popup_listen_url ≠ "" →
    (linkLoop links pl sh ar raw).popup_listen_url
        = popupUrlOf (linkLoop links pl sh ar raw).show_id
            (linkLoop links pl sh ar raw).archive_id
      ∧ (linkLoop links pl sh ar raw).show_id ≠ ""
      ∧ (linkLoop links pl sh ar raw).archive_id ≠ "" := by
  intro links
  induction links with
  | nil => intro pl sh ar raw h; exact absurd rfl h
  | cons l rest ih =>
    intro pl sh ar raw h
    rw [linkLoop] at h ⊢
    by_cases h1 : containsSub "See the playlist" l.label = true
    · simp only [h1, if_true] at h ⊢
      exact ih _ _ _ _ h
    · rw [Bool.not_eq_true] at h1
      simp only [h1, Bool.false_eq_true, if_false] at h ⊢
      by_cases h2 : (containsSub "Pop-up" l.label ||
          (containsSub "flashplayer.php" l.href && containsSub "version=3" l.href)) = true
      · simp only [h2, if_true] at h ⊢
        by_cases h3 : (parseQsFirst (urlQuery l.href) "show" ≠ ""
            && parseQsFirst (urlQuery l.href) "archive" ≠ "") = true
        · simp only [h3, if_true] at h ⊢
          have h4 := h3
          simp only [Bool.and_eq_true, decide_eq_true_eq] at h4
          exact ⟨trivial, h4.1, h4.2⟩
        · rw [Bool.not_eq_true] at h3
          simp only [h3, Bool.false_eq_true, if_false] at h ⊢
          exact ih _ _ _ _ h
      · rw [Bool.not_eq_true] at h2
        simp only [h2, Bool.false_eq_true, if_false] at h ⊢
        exact ih _ _ _ _ h

theorem mem_scrapeLoop : ∀ (flash : String → String) (items : List LItem) (cnt : Nat)
    (e : Entry), e ∈ scrapeLoop flash items cnt →
    ∃ it, processItem flash it = some e := by
  intro flash items
  induction items with
  | nil => intro cnt e h; simp [scrapeLoop] at h
  | cons a rest ih =>
    intro cnt e h
    rw [scrapeLoop] at h
    cases hsd : searchDate a.text.toList with
    | none =>
      rw [hsd] at h
      exact ih cnt e h
    | some p =>
      rw [hsd] at h
      obtain ⟨g1, y⟩ := p
      simp only [] at h
      by_cases hy : digitsToNat y ≤ 2024
      · rw [if_pos hy] at h
        simp at h
      · rw [if_neg hy] at h
        cases hpi : processItem flash a with
        | none =>
          rw [hpi] at h
          exact ih cnt e h
        | some e2 =>
          rw [hpi] at h
          simp only [] at h
          rcases List.mem_cons.mp h with rfl | htail
          · exact ⟨a, hpi⟩
          · by_cases hc : cnt + 1 ≥ 4
            · rw [if_pos hc] at htail
              simp at htail
            · rw [if_neg hc] at htail
              exact ih (cnt + 1) e htail

/-- Claim C10: every entry the scraper writes has non-empty show and
archive identifiers, a popup URL of exactly the flashplayer format
built from them, and serializes to a dict with exactly the nine known
keys and in particular no m3u_url key (reading it raises KeyError);
conversely a date-matching item whose anchor loop finds no popup URL
produces no entry at all. -/
theorem c10_entry_shape :
    (∀ (flash : String → String) (items : List LItem) (e : Entry),
      e ∈ wfmuScrape flash items →
      e.show_id ≠ "" ∧ e.archive_id ≠ ""
      ∧ e.popup_listen_url = popupUrlOf e.show_id e.archive_id
      ∧ jsonKeys (entryToJson e)
          = ["date", "title", "show_id", "archive_id", "playlist_link",
             "popup_listen_url", "direct_media_url", "mp4_listen_url", "raw_text"]
      ∧ dictGet (entryToJson e) "m3u_url" = .error (.keyError "m3u_url"))
    ∧ (∀ (flash : String → String) (it : LItem),
      (linkLoop it.links "" "" "" it.text).popup_listen_url = "" →
      processItem flash it = none) := by
  constructor
  · intro flash items e hmem
    obtain ⟨it, hpi⟩ := mem_scrapeLoop flash items 0 e hmem
    rw [processItem] at hpi
    cases hsd : searchDate it.text.toList with
    | none => rw [hsd] at hpi; cases hpi
    | some p =>
      rw [hsd] at hpi
      obtain ⟨g1, y⟩ := p
      simp only [] at hpi
      by_cases hp : (linkLoop it.links "" "" "" it.text).popup_listen_url = ""
      · rw [if_pos hp] at hpi; cases hpi
      · rw [if_neg hp] at hpi
        obtain ⟨hurl, hsh, har⟩ := linkLoop_popup it.links "" "" "" it.text hp
        injection hpi with hpi
        subst hpi
        exact ⟨hsh, har, hurl, rfl, rfl⟩
  · intro flash it h
    rw [processItem]
    cases hsd : searchDate it.text.toList with
    | none => rfl
    | some p =>
      obtain ⟨g1, y⟩ := p
      simp only []
      rw [if_pos h]

/-- Witness for c10_entry_shape at a concrete scrape and a popup-less
item. -/
theorem c10_entry_shape_witness :
    (cEntryJan.show_id ≠ "" ∧ cEntryJan.archive_id ≠ ""
      ∧ cEntryJan.popup_listen_url = popupUrlOf cEntryJan.show_id cEntryJan.archive_id
      ∧ jsonKeys (entryToJson cEntryJan)
          = ["date", "title", "show_id", "archive_id", "playlist_link",
             "popup_listen_url", "direct_media_url", "mp4_listen_url", "raw_text"]
      ∧ dictGet (entryToJson cEntryJan) "m3u_url" = .error (.keyError "m3u_url"))
    ∧ processItem cFlash cItemNoDate = none :=
  ⟨c10_entry_shape.1 cFlash [cItemJan] cEntryJan (by decide),
   c10_entry_shape.2 cFlash cItemNoDate (by decide)⟩

theorem finishYear_shape (al ds comma s4 g1 y : List Char)
    (h : finishYear al ds comma s4 = some (g1, y)) :
    (∃ a, g1 = a ++ y) ∧ y.length = 4 := by
  simp only [finishYear] at h
  split at h
  · rename_i hcond
    rw [Option.some.injEq, Prod.mk.injEq] at h
    obtain ⟨h1, h2⟩ := h
    subst h2
    subst h1
    simp only [Bool.and_eq_true, decide_eq_true_eq] at hcond
    refine ⟨⟨al ++ ' ' :: (ds ++ comma ++ [' ']), ?_⟩, hcond.1⟩
    simp
  · cases h

theorem matchDateAt_shape : ∀ (s g1 y : List Char),
    matchDateAt s = some (g1, y) → (∃ a, g1 = a ++ y) ∧ y.length = 4 := by
  intro s g1 y h
  simp only [matchDateAt] at h
  split at h
  · cases h
  · split at h
    · split at h
      · cases h
      · split at h
        · exact finishYear_shape _ _ _ _ _ _ h
        · exact finishYear_shape _ _ _ _ _ _ h
        · cases h
    · cases h

theorem searchDate_shape : ∀ (s g1 y : List Char),
    searchDate s = some (g1, y) → (∃ a, g1 = a ++ y) ∧ y.length = 4 := by
  intro s
  induction s with
  | nil => intro g1 y h; cases h
  | cons c cs ih =>
    intro g1 y h
    rw [searchDate] at h
    cases hm : matchDateAt (c :: cs) with
    | none =>
      rw [hm] at h
      exact ih g1 y h
    | some p =>
      obtain ⟨pg, py⟩ := p
      rw [hm] at h
      simp only [] at h
      rw [Option.some.injEq, Prod.mk.injEq] at h
      obtain ⟨h1, h2⟩ := h
      subst h1
      subst h2
      exact matchDateAt_shape (c :: cs) _ _ hm

theorem dateYear_of_suffix (a y : List Char) (hy : y.length = 4) :
    dateYear (String.mk (a ++ y)) = digitsToNat y := by
  rw [dateYear]
  have hl : (String.mk (a ++ y)).toList = a ++ y := rfl
  rw [hl, List.reverse_append]
  have h4 : y.reverse.length = 4 := by simp [hy]
  rw [← h4, List.take_left, List.reverse_reverse]

theorem processItem_date : ∀ (flash : String → String) (it : LItem) (e : Entry),
    processItem flash it = some e →
    ∃ g1 y, searchDate it.text.toList = some (g1, y) ∧ e.date = String.mk g1 := by
  intro flash it e h
  rw [processItem] at h
  cases hsd : searchDate it.text.toList with
  | none => rw [hsd] at h; cases h
  | some p =>
    rw [hsd] at h
    obtain ⟨g1, y⟩ := p
    simp only [] at h
    by_cases hp : (linkLoop it.links "" "" "" it.text).popup_listen_url = ""
    · rw [if_pos hp] at h; cases h
    · rw [if_neg hp] at h
      injection h with h
      subst h
      exact ⟨g1, y, rfl, rfl⟩

theorem scrapeLoop_year : ∀ (flash : String → String) (items : List LItem) (cnt : Nat)
    (e : Entry), e ∈ scrapeLoop flash items cnt → 2024 < dateYear e.date := by
  intro flash items
  induction items with
  | nil => intro cnt e h; simp [scrapeLoop] at h
  | cons a rest ih =>
    intro cnt e h
    rw [scrapeLoop] at h
    cases hsd : searchDate a.text.toList with
    | none =>
      rw [hsd] at h
      exact ih cnt e h
    | some p =>
      rw [hsd] at h
      obtain ⟨g1, y⟩ := p
      simp only [] at h
      by_cases hy : digitsToNat y ≤ 2024
      · rw [if_pos hy] at h
        simp at h
      · rw [if_neg hy] at h
        cases hpi : processItem flash a with
        | none =>
          rw [hpi] at h
          exact ih cnt e h
        | some e2 =>
          rw [hpi] at h
          simp only [] at h
          rcases List.mem_cons.mp h with rfl | htail
          · obtain ⟨g1b, yb, hsd2, hdate⟩ := processItem_date flash a e hpi
            rw [hsd, Option.some.injEq, Prod.mk.injEq] at hsd2
            obtain ⟨hg1, hg2⟩ := hsd2
            subst hg1
            subst hg2
            obtain ⟨⟨as, hsuf⟩, hlen⟩ := searchDate_shape a.text.toList g1 y hsd
            rw [hdate, hsuf, dateYear_of_suffix as y hlen]
            omega
          · by_cases hc : cnt + 1 ≥ 4
            · rw [if_pos hc] at htail
              simp at htail
            · rw [if_neg hc] at htail
              exact ih (cnt + 1) e htail

theorem scrapeLoop_characterization : ∀ (flash : String → String) (items : List LItem)
    (cnt : Nat), cnt < 4 →
    scrapeLoop flash items cnt
      = ((items.takeWhile (fun it => !isStopItem it)).filterMap
          (processItem flash)).take (4 - cnt) := by
  intro flash items
  induction items with
  | nil => intro cnt _; simp [scrapeLoop]
  | cons a rest ih =>
    intro cnt hcnt
    rw [scrapeLoop]
    cases hsd : searchDate a.text.toList with
    | none =>
      have hsdd : searchDate a.text.data = none := hsd
      have hstop : isStopItem a = false := by
        simp [isStopItem, itemYear, hsd, hsdd]
      have hpi : processItem flash a = none := by rw [processItem, hsd]
      rw [List.takeWhile_cons]
      simp only [hstop, Bool.not_false, if_true, List.filterMap_cons, hpi]
      exact ih cnt hcnt
    | some p =>
      obtain ⟨g1, y⟩ := p
      simp only []
      by_cases hy : digitsToNat y ≤ 2024
      · rw [if_pos hy]
        have hsdd : searchDate a.text.data = some (g1, y) := hsd
        have hstop : isStopItem a = true := by
          simp [isStopItem, itemYear, hsd, hsdd, hy]
        rw [List.takeWhile_cons]
        simp [hstop]
      · rw [if_neg hy]
        have hsdd : searchDate a.text.data = some (g1, y) := hsd
        have hstop : isStopItem a = false := by
          simp [isStopItem, itemYear, hsd, hsdd, hy]
        rw [List.takeWhile_cons]
        cases hpi : processItem flash a with
        | none =>
          simp only [hstop, Bool.not_false, if_true, List.filterMap_cons, hpi]
          exact ih cnt hcnt
        | some e =>
          simp only [hstop, Bool.not_false, if_true, List.filterMap_cons, hpi]
          have h4c : 4 - cnt = (4 - (cnt + 1)) + 1 := by omega
          rw [h4c, List.take_succ_cons]
          by_cases hc : cnt + 1 ≥ 4
          · rw [if_pos hc]
            have h0 : 4 - (cnt + 1) = 0 := by omega
            rw [h0, List.take_zero]
          · rw [if_neg hc, ih (cnt + 1) (by omega)]

/-- Claim C7: the playlists list is exactly the first four entries
extracted, in page order, from the prefix of items before the first
date-matching item at or below the cutoff year 2024 (so scanning stops
there and after the fourth accepted entry); hence it has at most four
entries and every entry's parsed year exceeds 2024. -/
theorem c7_snapshot_list_invariants :
    ∀ (flash : String → String) (items : List LItem),
      wfmuScrape flash items
        = ((items.takeWhile (fun it => !isStopItem it)).filterMap
            (processItem flash)).take 4
      ∧ (wfmuScrape flash items).length ≤ 4
      ∧ ∀ e ∈ wfmuScrape flash items, 2024 < dateYear e.date := by
  intro flash items
  refine ⟨?_, ?_, ?_⟩
  · exact scrapeLoop_characterization flash items 0 (by omega)
  · rw [wfmuScrape, scrapeLoop_characterization flash items 0 (by omega)]
    exact List.length_take_le _ _
  · intro e he
    exact scrapeLoop_year flash items 0 e he

/-- Witness for c7_snapshot_list_invariants on a concrete page. -/
theorem c7_snapshot_list_invariants_witness :
    wfmuScrape cFlash [cItemNoDate, cItemJan]
      = ((([cItemNoDate, cItemJan]).takeWhile (fun it => !isStopItem it)).filterMap
          (processItem cFlash)).take 4
    ∧ (wfmuScrape cFlash [cItemNoDate, cItemJan]).length ≤ 4
    ∧ 2024 < dateYear cEntryJan.date :=
  ⟨(c7_snapshot_list_invariants cFlash [cItemNoDate, cItemJan]).1,
   (c7_snapshot_list_invariants cFlash [cItemNoDate, cItemJan]).2.1,
   (c7_snapshot_list_invariants cFlash [cItemNoDate, cItemJan]).2.2 cEntryJan (by decide)⟩

theorem entryOfJson_entryToJson (e : Entry) : entryOfJson (entryToJson e) = some e := by
  cases e with
  | mk d t si ai pl pu dm m4 rt =>
    cases m4 with
    | none => rfl
    | some u => rfl

theorem decodeEntries_map (es : List Entry) :
    decodeEntries (es.map entryToJson) = some es := by
  induction es with
  | nil => rfl
  | cons e es ih =>
    rw [List.map_cons, decodeEntries, entryOfJson_entryToJson, ih]

/-- Claim C8: a snapshot written by the Snapshot Writer for any list of
entries reloads through the Playback Driver's loader to exactly that
list, same length and every field equal by value. -/
theorem c8_snapshot_round_trip :
    ∀ (last_updated source_url : String) (entries : List Entry),
      load_playlists (some (writeSnapshot last_updated source_url entries))
        = .arr (entries.map entryToJson)
      ∧ (entries.map entryToJson).length = entries.length
      ∧ decodeEntries (entries.map entryToJson) = some entries := by
  intro ts url es
  exact ⟨rfl, by simp, decodeEntries_map es⟩

theorem firstContentLine_spec : ∀ (pre : List (List Char)) (l : List Char)
    (post : List (List Char)),
    (∀ l2 ∈ pre, blankOrComment l2 = true) → blankOrComment l = false →
    firstContentLine (pre ++ l :: post) = some (pyStripL l) := by
  intro pre
  induction pre with
  | nil =>
    intro l post _ hl
    simp only [blankOrComment, Bool.or_eq_false_iff, decide_eq_false_iff_not] at hl
    rw [List.nil_append]
    simp only [firstContentLine]
    rw [if_neg (by simp [hl.1]), if_neg hl.2]
  | cons a pre ih =>
    intro l post hpre hl
    have ha := hpre a (by simp)
    rw [List.cons_append]
    by_cases h1 : (pyStripL a).isEmpty = true
    · simp only [firstContentLine, h1, if_true]
      exact ih l post (fun x hx => hpre x (by simp [hx])) hl
    · have h2 : (pyStripL a).headD ' ' = '#' := by
        simp only [blankOrComment, Bool.or_eq_true, h1, Bool.false_eq_true, false_or,
          decide_eq_true_eq] at ha
        exact ha
      simp only [firstContentLine, h1, if_false, h2, if_true]
      exact ih l post (fun x hx => hpre x (by simp [hx])) hl

theorem firstContentLine_none : ∀ ls : List (List Char),
    (∀ l ∈ ls, blankOrComment l = true) → firstContentLine ls = none := by
  intro ls
  induction ls with
  | nil => intro _; rfl
  | cons a ls ih =>
    intro h
    have ha := h a (by simp)
    by_cases h1 : (pyStripL a).isEmpty = true
    · simp only [firstContentLine, h1, if_true]
      exact ih (fun x hx => h x (by simp [hx]))
    · have h2 : (pyStripL a).headD ' ' = '#' := by
        simp only [blankOrComment, Bool.or_eq_true, h1, Bool.false_eq_true, false_or,
          decide_eq_true_eq] at ha
        exact ha
      simp only [firstContentLine, h1, if_false, h2, if_true]
      exact ih (fun x hx => h x (by simp [hx]))

/-- Counterexample to claim C4 as stated: on a document whose content
line carries surrounding whitespace, both resolvers return the stripped
line, not the line itself (the first non-blank, non-comment line of the
document, written by specFirstContentLine, differs from the result). -/
theorem c4_counterexample_stripped_line :
    get_mp3_url_from_m3u_scrape "https://www.wfmu.org/listen.m3u?show=1&archive=2"
        (some c4Doc) = "https://example.com/stream.mp3"
    ∧ get_mp3_url_from_m3u_play "https://www.wfmu.org/listen.m3u?show=1&archive=2"
        (some c4Doc) = some "https://example.com/stream.mp3"
    ∧ specFirstContentLine c4Doc = some "  https://example.com/stream.mp3  "
    ∧ ("https://example.com/stream.mp3" : String)
        ≠ "  https://example.com/stream.mp3  " :=
  ⟨rfl, rfl, rfl, by decide⟩

/-- Claim C4 as amended: both M3U resolvers return the
whitespace-stripped first line that strips to a non-blank non-comment
string; when every line is blank or a comment, or the fetch fails, the
result is empty (scraper resolver) or absent (player resolver). -/
theorem c4_m3u_first_content_line :
    (∀ (url body : String), url ≠ "" →
      ∀ (pre : List (List Char)) (l : List Char) (post : List (List Char)),
        pySplitlines body = pre ++ l :: post →
        (∀ l2 ∈ pre, blankOrComment l2 = true) → blankOrComment l = false →
        get_mp3_url_from_m3u_scrape url (some body) = String.mk (pyStripL l))
    ∧ (∀ (url body : String), url ≠ "" →
      ∀ (pre : List (List Char)) (l : List Char) (post : List (List Char)),
        splitOnChar '\n' (pyStrip body).toList = pre ++ l :: post →
        (∀ l2 ∈ pre, blankOrComment l2 = true) → blankOrComment l = false →
        get_mp3_url_from_m3u_play url (some body) = some (String.mk (pyStripL l)))
    ∧ (∀ (url body : String),
        (∀ l ∈ pySplitlines body, blankOrComment l = true) →
        get_mp3_url_from_m3u_scrape url (some body) = "")
    ∧ (∀ (url body : String),
        (∀ l ∈ splitOnChar '\n' (pyStrip body).toList, blankOrComment l = true) →
        get_mp3_url_from_m3u_play url (some body) = none)
    ∧ (∀ url : String,
        get_mp3_url_from_m3u_scrape url none = ""
        ∧ get_mp3_url_from_m3u_play url none = none) := by
  refine ⟨?_, ?_, ?_, ?_, ?_⟩
  · intro url body hurl pre l post hsplit hpre hl
    rw [get_mp3_url_from_m3u_scrape, if_neg hurl]
    rw [hsplit, firstContentLine_spec pre l post hpre hl]
  · intro url body hurl pre l post hsplit hpre hl
    rw [get_mp3_url_from_m3u_play, if_neg hurl]
    rw [hsplit, firstContentLine_spec pre l post hpre hl]
  · intro url body h
    rw [get_mp3_url_from_m3u_scrape]
    by_cases hurl : url = ""
    · rw [if_pos hurl]
    · rw [if_neg hurl]
      rw [firstContentLine_none _ h]
  · intro url body h
    rw [get_mp3_url_from_m3u_play]
    by_cases hurl : url = ""
    · rw [if_pos hurl]
    · rw [if_neg hurl]
      rw [firstContentLine_none _ h]
  · intro url
    constructor
    · rw [get_mp3_url_from_m3u_scrape]
      by_cases hurl : url = ""
      · rw [if_pos hurl]
      · rw [if_neg hurl]
    · rw [get_mp3_url_from_m3u_play]
      by_cases hurl : url = ""
      · rw [if_pos hurl]
      · rw [if_neg hurl]

/-- Witness for c4_m3u_first_content_line on the fixture document. -/
theorem c4_m3u_first_content_line_witness :
    get_mp3_url_from_m3u_scrape "u" (some c4Doc)
      = String.mk (pyStripL "  https://example.com/stream.mp3  ".toList)
    ∧ get_mp3_url_from_m3u_play "u" (some c4Doc)
      = some (String.mk (pyStripL "  https://example.com/stream.mp3".toList))
    ∧ get_mp3_url_from_m3u_scrape "u" (some "#a\n   ") = ""
    ∧ get_mp3_url_from_m3u_play "u" none = none :=
  ⟨c4_m3u_first_content_line.1 "u" c4Doc (by decide)
      ["#comment".toList] "  https://example.com/stream.mp3  ".toList []
      (by decide) (by decide) (by decide),
   c4_m3u_first_content_line.2.1 "u" c4Doc (by decide)
      ["#comment".toList] "  https://example.com/stream.mp3".toList []
      (by decide) (by decide) (by decide),
   c4_m3u_first_content_line.2.2.1 "u" "#a\n   " (by decide),
   (c4_m3u_first_content_line.2.2.2.2 "u").2⟩

end MyRadio
